import Mathlib

/-!
Shallow embedding of the Trusty build/test orchestration scripts
(`trusty_build_config.py`, `run_tests.py`, `build.py`), together with
theorems settling the specification claims about them.

Conventions:
* Python sets of capability-flag names become `Finset Flag`.
* Python `None`-able values become `Option`.
* Attribute accesses that would raise `AttributeError`/`TypeError` in
  Python (e.g. `.need.flags` on a plain `TrustyTest`) are modelled with
  `Option`-returning accessors that yield `none` in exactly those cases.
* The test-execution engine's interaction with the external environment
  driver (`subprocess.call`, `test_env.run_test`) is modelled by an
  oracle `σ : Nat → Option Int` consumed one entry per external run call
  (`none` models the call raising an exception).
-/

namespace TrustyBuild

/-! ## Capability flag model (`TrustyPortTestFlags`) -/

/-- The closed vocabulary `TrustyPortTestFlags.ALLOWED_FLAGS`. -/
inductive Flag where
  | android
  | storage_boot
  | storage_full
  | smp4
deriving DecidableEq, Repr

abbrev FlagSet := Finset Flag

/-- Models `TrustyPortTestFlags.set(**flags)`: add the flag when the argument is
truthy, discard it otherwise.  Unknown names raise in Python; the Lean
argument type (`Flag`) only admits the closed vocabulary. -/
def flagsSet (s : FlagSet) (l : List (Flag × Bool)) : FlagSet :=
  l.foldl (fun s p => if p.2 then insert p.1 s else s.erase p.1) s

/-- Models `porttestflags(**flags)` — the `TrustyPortTestFlags` constructor,
starting from the empty flag set. -/
def porttestflags (l : List (Flag × Bool)) : FlagSet :=
  flagsSet ∅ l

/-- Models `TrustyPortTestFlags.match_provide`: `self.flags.issubset(provide.flags)`. -/
def match_provide (need provide : FlagSet) : Bool :=
  decide (need ⊆ provide)

/-! ## Test model

One constructor per Python test/command class that can appear in a test
list:

* `host`      — `TrustyHostTest` (name, command, enabled);
* `port`      — `TrustyPortTest` (port, enabled, timeout, need);
  its `command` attribute is `None` in Python;
* `android`   — `TrustyAndroidTest` (name, shell_command, command, enabled);
* `plain`     — a base-class `TrustyTest` instance, as produced by
  `into_bootporttest` (name, command, enabled);
* `reboot`    — `TrustyRebootCommand` (name `"reboot command"`, enabled
  `True`, empty need);
* `composite` — `TrustyCompositeTest` (name, sequence, enabled, need).
-/

inductive Test where
  | host (name : String) (command : List String) (enabled : Bool)
  | port (port : String) (enabled : Bool) (timeout : Option Nat) (need : FlagSet)
  | android (name : String) (shell_command : String) (command : List String)
      (enabled : Bool)
  | plain (name : String) (command : List String) (enabled : Bool)
  | reboot
  | composite (name : String) (sequence : List Test) (enabled : Bool)
      (need : FlagSet)

mutual

/-- Decidable equality of tests (the `deriving` handler does not support
the nested `List Test` occurrence, so it is spelled out). -/
def decEqTest : (a b : Test) → Decidable (a = b)
  | .host n c e, b =>
      match b with
      | .host n' c' e' =>
          decidable_of_iff (n = n' ∧ c = c' ∧ e = e') (by rw [Test.host.injEq])
      | .port _ _ _ _ => .isFalse fun h => Test.noConfusion h
      | .android _ _ _ _ => .isFalse fun h => Test.noConfusion h
      | .plain _ _ _ => .isFalse fun h => Test.noConfusion h
      | .reboot => .isFalse fun h => Test.noConfusion h
      | .composite _ _ _ _ => .isFalse fun h => Test.noConfusion h
  | .port p e t d, b =>
      match b with
      | .port p' e' t' d' =>
          decidable_of_iff (p = p' ∧ e = e' ∧ t = t' ∧ d = d')
            (by rw [Test.port.injEq])
      | .host _ _ _ => .isFalse fun h => Test.noConfusion h
      | .android _ _ _ _ => .isFalse fun h => Test.noConfusion h
      | .plain _ _ _ => .isFalse fun h => Test.noConfusion h
      | .reboot => .isFalse fun h => Test.noConfusion h
      | .composite _ _ _ _ => .isFalse fun h => Test.noConfusion h
  | .android n s c e, b =>
      match b with
      | .android n' s' c' e' =>
          decidable_of_iff (n = n' ∧ s = s' ∧ c = c' ∧ e = e')
            (by rw [Test.android.injEq])
      | .host _ _ _ => .isFalse fun h => Test.noConfusion h
      | .port _ _ _ _ => .isFalse fun h => Test.noConfusion h
      | .plain _ _ _ => .isFalse fun h => Test.noConfusion h
      | .reboot => .isFalse fun h => Test.noConfusion h
      | .composite _ _ _ _ => .isFalse fun h => Test.noConfusion h
  | .plain n c e, b =>
      match b with
      | .plain n' c' e' =>
          decidable_of_iff (n = n' ∧ c = c' ∧ e = e')
            (by rw [Test.plain.injEq])
      | .host _ _ _ => .isFalse fun h => Test.noConfusion h
      | .port _ _ _ _ => .isFalse fun h => Test.noConfusion h
      | .android _ _ _ _ => .isFalse fun h => Test.noConfusion h
      | .reboot => .isFalse fun h => Test.noConfusion h
      | .composite _ _ _ _ => .isFalse fun h => Test.noConfusion h
  | .reboot, b =>
      match b with
      | .reboot => .isTrue rfl
      | .host _ _ _ => .isFalse fun h => Test.noConfusion h
      | .port _ _ _ _ => .isFalse fun h => Test.noConfusion h
      | .android _ _ _ _ => .isFalse fun h => Test.noConfusion h
      | .plain _ _ _ => .isFalse fun h => Test.noConfusion h
      | .composite _ _ _ _ => .isFalse fun h => Test.noConfusion h
  | .composite n s e d, b =>
      match b with
      | .composite n' s' e' d' =>
          have : Decidable (s = s') := decEqTestList s s'
          decidable_of_iff (n = n' ∧ s = s' ∧ e = e' ∧ d = d')
            (by rw [Test.composite.injEq])
      | .host _ _ _ => .isFalse fun h => Test.noConfusion h
      | .port _ _ _ _ => .isFalse fun h => Test.noConfusion h
      | .android _ _ _ _ => .isFalse fun h => Test.noConfusion h
      | .plain _ _ _ => .isFalse fun h => Test.noConfusion h
      | .reboot => .isFalse fun h => Test.noConfusion h

def decEqTestList : (l l' : List Test) → Decidable (l = l')
  | [], [] => .isTrue rfl
  | [], _ :: _ => .isFalse fun h => List.noConfusion h
  | _ :: _, [] => .isFalse fun h => List.noConfusion h
  | a :: l, b :: l' =>
      have : Decidable (a = b) := decEqTest a b
      have : Decidable (l = l') := decEqTestList l l'
      decidable_of_iff (a = b ∧ l = l') (by rw [List.cons.injEq])

end

instance : DecidableEq Test := decEqTest

/-- The `name` attribute of each test object. -/
def Test.name : Test → String
  | .host n _ _ => n
  | .port p _ _ _ => p
  | .android n _ _ _ => n
  | .plain n _ _ => n
  | .reboot => "reboot command"
  | .composite n _ _ _ => n

/-- The `enabled` attribute of each test object (`TrustyCommand` sets it
to `True`). -/
def Test.enabled : Test → Bool
  | .host _ _ e => e
  | .port _ e _ _ => e
  | .android _ _ _ e => e
  | .plain _ _ e => e
  | .reboot => true
  | .composite _ _ e _ => e

/-- Access `test.need.flags` as done by the `TrustyCompositeTest`
constructor.  `TrustyPortTest`, `TrustyCommand` and `TrustyCompositeTest`
carry a `TrustyPortTestFlags` need; a `TrustyHostTest`'s `need` is the
`TrustyHostTestFlags` sentinel which has no `flags` attribute, and plain
`TrustyTest`/`TrustyAndroidTest` objects have no `need` attribute at all,
so those accesses raise `AttributeError` in Python (`none` here). -/
def needOpt : Test → Option FlagSet
  | .port _ _ _ need => some need
  | .reboot => some ∅
  | .composite _ _ _ need => some need
  | _ => none

/-- Models `test.need.match_provide(provides)` as used by `porttest_match`.
`TrustyHostTestFlags.match_provide` ignores its argument and returns
`False`; tests without a `need` attribute raise (`none`). -/
def porttest_match : Test → FlagSet → Option Bool
  | .host _ _ _, _ => some false
  | .port _ _ _ need, p => some (match_provide need p)
  | .reboot, p => some (match_provide ∅ p)
  | .composite _ _ _ need, p => some (match_provide need p)
  | .android _ _ _ _, _ => none
  | .plain _ _ _, _ => none

/-! ## Config-file builder operations (`TrustyBuildConfig.read_config_file`'s
`file_format` namespace) -/

/-- Models `porttest(port, enabled=True, timeout=None)` — the `TrustyPortTest`
constructor: `command` is `None`, `need` starts empty. -/
def porttest (port : String) (enabled : Bool := true)
    (timeout : Option Nat := none) : Test :=
  .port port enabled timeout ∅

/-- Models `hosttest(host_cmd, enabled=True)`. -/
def hosttest (host_cmd : String) (enabled : Bool := true) : Test :=
  .host ("host-test:" ++ host_cmd) ["host_tests/" ++ host_cmd] enabled

/-- The chainable `.needs(**flags)` method.  `TrustyPortTest` and
`TrustyCompositeTest` mutate their need set via `TrustyPortTestFlags.set`;
`TrustyCommand.needs` ignores its arguments; plain `TrustyTest`,
`TrustyAndroidTest` and `TrustyHostTest` have no `needs` method
(`AttributeError`, modelled as `none`). -/
def Test.needs : Test → List (Flag × Bool) → Option Test
  | .port p e t need, l => some (.port p e t (flagsSet need l))
  | .composite n s e need, l => some (.composite n s e (flagsSet need l))
  | .reboot, _ => some .reboot
  | _, _ => none

/-- Models `TrustyAndroidTest(name, command, enabled, nameprefix, runargs, timeout)`:
the displayed name gets `nameprefix + "android-test:"` prepended and the
command wraps the shell command in a `run --headless --shell-command`
invocation. -/
def androidtest (name command : String) (enabled : Bool := true)
    ( nameprefix : String := "") (runargs : List String := [])
    (timeout : Option Nat := none) : Test :=
  .android ( nameprefix ++ "android-test:" ++ name) command
    (["run", "--headless", "--shell-command", command]
      ++ (match timeout with
          | some t => ["--timeout", toString t]
          | none => [])
      ++ runargs)
    enabled

mutual

/-- Models `TrustyPortTest.into_bootporttest` builds a plain `TrustyTest` named
`"boot-test:" + port`; `TrustyCommand.into_bootporttest` returns the
command unchanged; `TrustyCompositeTest.into_bootporttest` maps the
conversion over its sequence, keeping `name`, `enabled` and `need`
unchanged.  Other test classes have no such method (`AttributeError`). -/
def into_bootporttest : Test → Option Test
  | .port p enabled timeout _ =>
      some (.plain ("boot-test:" ++ p)
        (["run", "--headless", "--boot-test", p]
          ++ (match timeout with
              | some t => ["--timeout", toString t]
              | none => []))
        enabled)
  | .reboot => some .reboot
  | .composite n seq e need =>
      (into_bootporttestSeq seq).map fun s => .composite n s e need
  | _ => none

/-- The list comprehension
`[subtest.into_bootporttest() for subtest in self.sequence]`. -/
def into_bootporttestSeq : List Test → Option (List Test)
  | [] => some []
  | t :: ts => do pure ((← into_bootporttest t) :: (← into_bootporttestSeq ts))

end

mutual

/-- Models `TrustyPortTest.into_androidporttest(cmdargs, nameprefix, runargs)`
joins `/vendor/bin/trusty-ut-ctrl`, the port and `cmdargs` into a shell
command and wraps it in a `TrustyAndroidTest`;
`TrustyCommand.into_androidporttest` returns the command unchanged;
`TrustyCompositeTest.into_androidporttest` maps the conversion over its
sequence, keeping `name`, `enabled` and `need` unchanged. -/
def into_androidporttest ( nameprefix : String) (cmdargs runargs : List String) :
    Test → Option Test
  | .port p enabled timeout _ =>
      some (androidtest p
        (" ".intercalate (["/vendor/bin/trusty-ut-ctrl", p] ++ cmdargs))
        enabled nameprefix runargs timeout)
  | .reboot => some .reboot
  | .composite n seq e need =>
      (into_androidporttestSeq nameprefix cmdargs runargs seq).map
        fun s => .composite n s e need
  | _ => none

/-- The list comprehension
`[subtest.into_androidporttest(**kwargs) for subtest in self.sequence]`. -/
def into_androidporttestSeq ( nameprefix : String)
    (cmdargs runargs : List String) : List Test → Option (List Test)
  | [] => some []
  | t :: ts => do
      pure ((← into_androidporttest nameprefix cmdargs runargs t)
        :: (← into_androidporttestSeq nameprefix cmdargs runargs ts))

end

/-- Models `compositetest(name, sequence, enabled=True)` — the
`TrustyCompositeTest` constructor.  It unions `subtest.need.flags` over
the sequence (raising if a subtest has no such attribute) and rebuilds a
`TrustyPortTestFlags` from the union. -/
def compositetest (name : String) (sequence : List Test)
    (enabled : Bool := true) : Option Test :=
  (sequence.mapM needOpt).map fun l =>
    .composite name sequence enabled (l.foldl (· ∪ ·) ∅)

/-- Models `porttests_filter(tests, provides)`: keep the tests whose
`need.match_provide(provides)` is true (the input is already flat). -/
def porttests_filter : List Test → FlagSet → Option (List Test)
  | [], _ => some []
  | t :: ts, p =>
      match porttest_match t p, porttests_filter ts p with
      | some b, some rest => some (if b then t :: rest else rest)
      | _, _ => none

/-- Models `boottests(port_tests, provides)`: filter by provided capabilities,
then convert each surviving test with `into_bootporttest`.  The default
`provides` is `TrustyPortTestFlags(storage_boot=True, smp4=True)`. -/
def boottests (port_tests : List Test)
    (provides : FlagSet := {Flag.storage_boot, Flag.smp4}) :
    Option (List Test) :=
  (porttests_filter port_tests provides).bind into_bootporttestSeq

/-- Models `androidporttests(port_tests, provides, nameprefix, cmdargs, runargs)`:
filter by provided capabilities, then convert each surviving test with
`into_androidporttest`.  The default `provides` is all four flags, and the
nameprefix gets `"android-port-test:"` appended. -/
def androidporttests (port_tests : List Test)
    (provides : FlagSet :=
      {Flag.android, Flag.storage_boot, Flag.storage_full, Flag.smp4})
    ( nameprefix : String := "") (cmdargs : List String := [])
    (runargs : List String := []) : Option (List Test) :=
  (porttests_filter port_tests provides).bind
    (into_androidporttestSeq ( nameprefix ++ "android-port-test:")
      cmdargs runargs)

/-! ## Test execution engine (`run_tests.py`)

`run_test`/`run_tests` interact with the outside world through
`subprocess.call` (host tests) and the test-environment driver
(`load`/`init`/`run_test`/`shutdown`).  The status returned by each
external run call is supplied by an oracle `σ : Nat → Option Int`,
consumed left to right (one position per call); `none` models the call
raising an exception.  Environment lifecycle calls are recorded as ghost
`events`, and `retries` counts how many retry attempts were started
(the "retrying potentially flaky test" prints). -/

/-- The `TestResult` namedtuple: `(test, passed, retried)`. -/
structure TestResult where
  test : String
  passed : Bool
  retried : Bool
deriving DecidableEq, Repr

/-- Ghost record of calls into the external test-environment driver. -/
inductive Event where
  | load
  | initRunner
  | shutdown (runnerActive : Bool)
deriving DecidableEq, Repr

/-- Exceptions that can propagate out of `run_test`:
* `rebootOutsideComposite` — `RuntimeError("Reboot may only be used inside
  compositetest")`;
* `commandBroken` — the `TypeError` from `test.command[1:]` when a raw
  `TrustyPortTest` (whose `command` is `None`) reaches `run_test`;
* `runFailed` — an exception raised by `subprocess.call` or by the
  driver's `run_test` primitive. -/
inductive RunErr where
  | rebootOutsideComposite
  | commandBroken
  | runFailed
deriving DecidableEq, Repr

/-- The mutable state threaded through a `run_tests` call: the
`TestResults` object's fields, the lazily-managed `test_env` /
`test_runner` pair, the oracle position `pos`, and the ghost
`retries`/`events` records. -/
structure St where
  env : Bool
  runner : Bool
  passed : Bool
  passed_count : Nat
  failed_count : Nat
  flaked_count : Nat
  retried_count : Nat
  test_results : List TestResult
  pos : Nat
  retries : Nat
  events : List Event
deriving DecidableEq, Repr

/-- A fresh `TestResults` object with no environment loaded. -/
def initSt : St :=
  { env := false, runner := false, passed := true, passed_count := 0
    failed_count := 0, flaked_count := 0, retried_count := 0
    test_results := [], pos := 0, retries := 0, events := [] }

/-- Models `TestResults.add_result(test, passed, retried)`. -/
def add_result (st : St) (test : String) (passed retried : Bool) : St :=
  let st := { st with
    test_results := st.test_results ++ [TestResult.mk test passed retried] }
  let st :=
    if passed then
      let st := { st with passed_count := st.passed_count + 1 }
      if retried then { st with flaked_count := st.flaked_count + 1 } else st
    else
      { st with passed := false, failed_count := st.failed_count + 1 }
  if retried then { st with retried_count := st.retried_count + 1 } else st

/-- The global retry cap from `run_tests.py`. -/
def MAX_RETRIES : Nat := 10

/-- Models `if not test_env: test_env = load_test_environment()`. -/
def load_env (st : St) : St :=
  if st.env then st
  else { st with env := true, events := st.events ++ [.load] }

/-- Models `if not test_runner: test_runner = test_env.init(...)`. -/
def init_runner (st : St) : St :=
  if st.runner then st
  else { st with runner := true, events := st.events ++ [.initRunner] }

/-- Models `if test_env: test_env.shutdown(test_runner); test_runner = None` —
performed on a reboot command and before a retry. -/
def shutdown_runner (st : St) : St :=
  if st.env then
    { st with events := st.events ++ [.shutdown st.runner], runner := false }
  else st

mutual

/-- Models `run_test(test, parent_test, retry)`.  `parent` records whether a
`parent_test` was passed (only its presence matters: it gates the reboot
command).  Returns the test status or a propagating exception, paired
with the updated state. -/
def run_test (σ : Nat → Option Int) (t : Test) (parent retry : Bool)
    (st : St) : Except RunErr Int × St :=
  match t with
  | .host name command enabled =>
      -- status = subprocess.call(cmd)
      (match σ st.pos with
       | none => (.error .runFailed, { st with pos := st.pos + 1 })
       | some status =>
           after_run σ (.host name command enabled) parent retry
             { st with pos := st.pos + 1 } status)
  | .composite name seq enabled need =>
      -- status = 0; for subtest in test.sequence: ... break on failure
      (match run_test_sequence σ seq retry st with
       | (.error e, st1) => (.error e, st1)
       | (.ok status, st1) =>
           after_run σ (.composite name seq enabled need) parent retry st1
             status)
  | .android name sc command enabled =>
      run_generic σ (.android name sc command enabled) parent retry st
  | .plain name command enabled =>
      run_generic σ (.plain name command enabled) parent retry st
  | .port _ _ _ _ =>
      -- `cmd = test.command[1:]` raises: a raw port test has command None
      (.error .commandBroken, st)
  | .reboot =>
      if parent then (.ok 0, shutdown_runner st)
      else (.error .rebootOutsideComposite, st)
termination_by 8 * sizeOf t + 4 * (if retry then 1 else 0) + 2
decreasing_by all_goals (simp_wf; (try simp_all); (try omega))

/-- The `case TrustyTest()` branch: lazily load the environment module
and init a runner, then invoke the driver's `run_test` primitive. -/
def run_generic (σ : Nat → Option Int) (t : Test) (parent retry : Bool)
    (st : St) : Except RunErr Int × St :=
  match σ (init_runner (load_env st)).pos with
  | none =>
      (.error .runFailed,
        { init_runner (load_env st) with
            pos := (init_runner (load_env st)).pos + 1 })
  | some status =>
      after_run σ t parent retry
        { init_runner (load_env st) with
            pos := (init_runner (load_env st)).pos + 1 }
        status
termination_by 8 * sizeOf t + 4 * (if retry then 1 else 0) + 1
decreasing_by all_goals (simp_wf; (try simp_all); (try omega))

/-- The common tail of `run_test` after a status was computed: retry a
failing test when allowed (shutting the runner down first), otherwise
record the result with `retried = not retry`. -/
def after_run (σ : Nat → Option Int) (t : Test) (parent retry : Bool)
    (st : St) (status : Int) : Except RunErr Int × St :=
  if h : status ≠ 0 ∧ retry = true ∧ st.retried_count < MAX_RETRIES then
    run_test σ t parent false
      { shutdown_runner st with retries := (shutdown_runner st).retries + 1 }
  else
    (.ok status, add_result st t.name (status = 0) (!retry))
termination_by 8 * sizeOf t + 4 * (if retry then 1 else 0)
decreasing_by all_goals (simp_wf; (try simp_all); (try omega))

/-- The subtest loop of the `case TrustyCompositeTest()` branch: run the
subtests in order, stopping at the first non-zero status (which becomes
the composite's status). -/
def run_test_sequence (σ : Nat → Option Int) (seq : List Test)
    (retry : Bool) (st : St) : Except RunErr Int × St :=
  match seq with
  | [] => (.ok 0, st)
  | sub :: rest =>
      match run_test σ sub true retry st with
      | (.error e, st1) => (.error e, st1)
      | (.ok status, st1) =>
          if status ≠ 0 then (.ok status, st1)
          else run_test_sequence σ rest retry st1
termination_by 8 * sizeOf seq + 4 * (if retry then 1 else 0) + 2
decreasing_by all_goals (simp_wf; (try simp_all); (try omega))

end

/-- Models `test_should_run(testname, test_filters)`: true when the filter list
is `None` or empty, or when some regex matches (a compiled regex is
modelled as a `String → Bool` predicate). -/
def test_should_run (testname : String)
    (test_filters : Option (List (String → Bool))) : Bool :=
  match test_filters with
  | none => true
  | some l => l.isEmpty || l.any fun r => r testname

/-- The `for test in project_config.tests` loop of `run_tests`: skip
disabled tests (unless `run_disabled_tests`) and filtered-out tests, and
run the rest with no parent test. -/
def run_tests_loop (σ : Nat → Option Int) (run_disabled_tests : Bool)
    (test_filters : Option (List (String → Bool))) (retry : Bool) :
    List Test → St → Except RunErr Unit × St
  | [], st => (.ok (), st)
  | t :: ts, st =>
      if !t.enabled && !run_disabled_tests then
        run_tests_loop σ run_disabled_tests test_filters retry ts st
      else if !test_should_run t.name test_filters then
        run_tests_loop σ run_disabled_tests test_filters retry ts st
      else
        match run_test σ t false retry st with
        | (.error e, st1) => (.error e, st1)
        | (.ok _, st1) =>
            run_tests_loop σ run_disabled_tests test_filters retry ts st1

/-- Models `run_tests(...)` for one project: compute the run-level retry policy,
walk the test list, and — in a `finally` block — shut the environment
down if it was loaded, whether the loop finished normally or an
exception is propagating. -/
def run_tests (σ : Nat → Option Int) (tests : List Test)
    (run_disabled_tests : Bool)
    (test_filters : Option (List (String → Bool)))
    (debug_on_error : Bool) : Except RunErr Unit × St :=
  let retry := test_filters.isNone && !debug_on_error
  let r := run_tests_loop σ run_disabled_tests test_filters retry tests initSt
  let st := r.2
  let st :=
    if st.env then { st with events := st.events ++ [.shutdown st.runner] }
    else st
  (r.1, st)

/-! ## Configuration sources and `include`
(`TrustyBuildConfig.read_config_file`)

A config source is a single expression over the builder namespace.  For
the include machinery the produced values are opaque (`α`); an
expression is a produced value, a (possibly nested) list, or an
`include(path, optional)` call.  The filesystem is a partial map from
paths to parsed sources (`none` = the path does not exist). -/

inductive CExpr (α : Type) where
  | item (a : α)
  | group (es : List (CExpr α))
  | incl (path : String) (optional : Bool)

/-- Errors during config loading: the `FileNotFoundError` raised by
`open` on a missing non-optional path, and exhaustion of the recursion
allowance (an artifact of the embedding; Python would recurse forever on
cyclic includes). -/
inductive CfgErr where
  | fileNotFound (path : String)
  | outOfFuel
deriving DecidableEq, Repr

/-- Models `path.startswith(".")`: the path's first character is a dot
(spelled via the character list so it evaluates by `decide`). -/
def starts_with_dot (p : String) : Bool :=
  p.data.head? == some '.'

/-- Models `os.path.dirname`. -/
def dirname (p : String) : String :=
  let parts := p.splitOn "/"
  if parts.length ≤ 1 then "" else "/".intercalate parts.dropLast

mutual

/-- Models `read_config_file(path, optional)`: an optional missing path yields
`[]`; a non-optional missing path raises; otherwise the file's
expression is evaluated (includes resolved relative to the file's
directory) and the result flattened. -/
def read_config_file {α : Type} (fs : String → Option (CExpr α)) :
    Nat → String → Bool → Except CfgErr (List α)
  | 0, _, _ => .error .outOfFuel
  | fuel + 1, path, optional =>
      if optional ∧ (fs path).isNone then .ok []
      else
        match fs path with
        | none => .error (.fileNotFound path)
        | some e => evalCExpr fs fuel (dirname path) e

/-- Evaluate one config expression: a value contributes itself, a list
contributes its members' contributions in order (flattening), and an
include splices in the included file's produced list.  A path starting
with `.` is joined to the including file's directory first. -/
def evalCExpr {α : Type} (fs : String → Option (CExpr α)) :
    Nat → String → CExpr α → Except CfgErr (List α)
  | fuel, dir, e =>
      match e with
      | .item a => .ok [a]
      | .group es => evalCList fs fuel dir es
      | .incl path optional =>
          read_config_file fs fuel
            (if starts_with_dot path then dir ++ "/" ++ path else path)
            optional

/-- Evaluate a list of config expressions and concatenate the produced
value lists (the `flatten_list` behaviour). -/
def evalCList {α : Type} (fs : String → Option (CExpr α)) :
    Nat → String → List (CExpr α) → Except CfgErr (List α)
  | _, _, [] => .ok []
  | fuel, dir, e :: es => do
      pure ((← evalCExpr fs fuel dir e) ++ (← evalCList fs fuel dir es))

end

/-- The `include(path, optional=False)` statement of a config file whose
directory is `config_dir`. -/
def include_stmt {α : Type} (fs : String → Option (CExpr α)) (fuel : Nat)
    (config_dir path : String) (optional : Bool := false) :
    Except CfgErr (List α) :=
  read_config_file fs fuel
    (if starts_with_dot path then config_dir ++ "/" ++ path else path)
    optional

/-! ## Build dependency resolution (`builddep` + `build.py:get_build_deps`)

The project table maps project names to the insertion-ordered key list
of `project.also_build` (the dict's values are the projects registered
under those names, so names determine them). -/

abbrev ProjectTable := List (String × List String)

/-- Models `TrustyBuildConfig.get_project`: create an empty entry on first
reference.  Returns the updated table. -/
def get_project (tbl : ProjectTable) (name : String) : ProjectTable :=
  if tbl.any fun e => e.1 == name then tbl else tbl ++ [(name, [])]

/-- Models `project.also_build[dep_name] = dep_project`: dict assignment keeps
an existing key's position and appends a new key. -/
def dict_add_key (l : List String) (d : String) : List String :=
  if d ∈ l then l else l ++ [d]

/-- Apply `f` to the `also_build` key list of project `name`. -/
def table_update (tbl : ProjectTable) (name : String)
    (f : List String → List String) : ProjectTable :=
  tbl.map fun e => if e.1 == name then (e.1, f e.2) else e

/-- Models `builddep(projects, needs)`: for each named project, register each
name in `needs` as an `also_build` edge (creating both projects on first
reference). -/
def builddep (tbl : ProjectTable) (projects needs : List String) :
    ProjectTable :=
  projects.foldl
    (fun tbl pn =>
      let tbl := get_project tbl pn
      needs.foldl
        (fun tbl dn =>
          let tbl := get_project tbl dn
          table_update tbl pn fun deps => dict_add_key deps dn)
        tbl)
    tbl

/-- Iteration over `project.also_build.items()`: the recorded key list
(a project absent from the table has no edges). -/
def also_build (tbl : ProjectTable) (name : String) : List String :=
  match tbl.find? fun e => e.1 == name with
  | some e => e.2
  | none => []

mutual

/-- Models `build.py:get_build_deps(project_name, project, project_names,
already_built)`: depth-first post-order walk guarded by the
`already_built` set.  State is `(already_built, project_names)`; the
fuel bounds the recursion depth (`none` = the allowance ran out, which
cannot happen for enough fuel). -/
def get_build_deps (tbl : ProjectTable) :
    Nat → String → List String × List String →
    Option (List String × List String)
  | 0, _, _ => none
  | fuel + 1, name, st =>
      if name ∈ st.1 then some st
      else
        match get_build_deps_list tbl fuel (also_build tbl name)
            (name :: st.1, st.2) with
        | none => none
        | some st2 => some (st2.1, st2.2 ++ [name])

/-- The `for dep_project_name, dep_project in project.also_build.items()`
loop. -/
def get_build_deps_list (tbl : ProjectTable) :
    Nat → List String → List String × List String →
    Option (List String × List String)
  | _, [], st => some st
  | fuel, d :: ds, st =>
      match get_build_deps tbl fuel d st with
      | none => none
      | some st1 => get_build_deps_list tbl fuel ds st1

end

/-- The build order computed for a single root project: run the DFS from
an empty state and read off the accumulated `project_names` list. -/
def build_order (tbl : ProjectTable) (fuel : Nat) (root : String) :
    Option (List String) :=
  (get_build_deps tbl fuel root ([], [])).map (·.2)

/-! ## Claim-side definitions

Formalizations of the spec's vocabulary, stated against the embedded
source definitions above, plus the concrete example objects used by
counterexamples and witnesses. -/

/-- Union of the need sets of the subtests of a sequence (`none` when a
subtest carries no need set, which raises in Python). -/
def subtest_need_union (seq : List Test) : Option FlagSet :=
  (seq.mapM needOpt).map fun l => l.foldl (· ∪ ·) ∅

/-- The claimed invariant: a composite's stored need equals the union of
the need sets of the subtests *currently* in its sequence.  (Vacuous for
non-composites.) -/
def composite_need_invariant : Test → Prop
  | .composite _ seq _ need => subtest_need_union seq = some need
  | _ => True

/-- A port test needing `storage_boot`, as built by
`porttest("p").needs(storage_boot=True)`. -/
def pEx : Test := .port "p" true none {Flag.storage_boot}

/-- The composite built by `compositetest("comp", [pEx])`. -/
def cEx : Test := .composite "comp" [pEx] true {Flag.storage_boot}

/-- Models `cEx.into_bootporttest()`: the sequence now holds a plain boot-test
command (no need attribute), the composite's need is unchanged. -/
def cExBoot : Test :=
  .composite "comp"
    [.plain "boot-test:p" ["run", "--headless", "--boot-test", "p"] true]
    true {Flag.storage_boot}

/-- What the spec says `boottests` selects: exactly the port tests whose
need set is a subset of the provide set, each converted to its bootable
form; everything else (in particular any host test) excluded. -/
def boottests_selection (ts : List Test) (p : FlagSet) : List Test :=
  ts.filterMap fun t =>
    match t with
    | .port q e tmo need =>
        if need ⊆ p then into_bootporttest (.port q e tmo need) else none
    | _ => none

/-- Dependency edge of the project table: `d` is registered in
`n`'s `also_build`. -/
def dep_edge (tbl : ProjectTable) (n d : String) : Prop :=
  d ∈ also_build tbl n

/-- No project transitively depends on itself. -/
def acyclic (tbl : ProjectTable) : Prop :=
  ∀ n, ¬ Relation.TransGen (dep_edge tbl) n n

/-- Every entry of the list is preceded by all of its dependencies:
however the list is split around an element, that element's dependencies
all lie strictly to its left. -/
def deps_precede (tbl : ProjectTable) (out : List String) : Prop :=
  ∀ l1 n l2, out = l1 ++ n :: l2 → ∀ d, dep_edge tbl n d → d ∈ l1

/-- The invariant carried through the depth-first walk: the output list
has no duplicates, is contained in the visited set, and respects
dependency order. -/
def dfs_inv (tbl : ProjectTable) (vis out : List String) : Prop :=
  out.Nodup ∧ (∀ x ∈ out, x ∈ vis) ∧ deps_precede tbl out

/-- The project table produced by `builddep(["a"], needs=["b"])` followed
by `builddep(["b"], needs=["c"])`. -/
def tblEx : ProjectTable := [("a", ["b"]), ("b", ["c"]), ("c", [])]

/-- A rank function witnessing that `tblEx` has no dependency cycle. -/
def rankEx (s : String) : Nat :=
  if s = "a" then 2 else if s = "b" then 1 else 0

/-- Status oracle for the composite scenario: the second external run
call (the `B` subtest) fails with status 7, all others pass. -/
def sigAB : Nat → Option Int := fun k => if k = 1 then some 7 else some 0

/-- The composite test `[A, B, C]` of the scenario. -/
def compABC : Test :=
  .composite "comp"
    [.plain "A" ["cmdA"] true, .plain "B" ["cmdB"] true,
     .plain "C" ["cmdC"] true]
    true ∅

/-- Status oracle for the flaky-leaf scenario: the first external run
call fails with status 3, all others pass. -/
def sigFlaky : Nat → Option Int := fun k => if k = 0 then some 3 else some 0

/-- Bookkeeping invariant of runs with retrying disabled: every recorded
result is marked retried, the run-wide retried counter counts all
records, and the flaked counter counts exactly the passing records. -/
def all_retried_inv (st : St) : Prop :=
  (∀ r ∈ st.test_results, r.retried = true)
  ∧ st.retried_count = st.test_results.length
  ∧ st.flaked_count = (st.test_results.filter (·.passed)).length

/-- How one `run_test` call relates its input state to its output state:
the shared retried counter never decreases; once it is at or above
`MAX_RETRIES` no retry attempt is ever started; and with run-level
retrying off, no retry attempt is started and `all_retried_inv` is
preserved. -/
def run_rel (retry : Bool) (st st' : St) : Prop :=
  st.retried_count ≤ st'.retried_count
  ∧ (MAX_RETRIES ≤ st.retried_count → st'.retries = st.retries)
  ∧ (retry = false →
      st'.retries = st.retries ∧ (all_retried_inv st → all_retried_inv st'))

/-! ## Claim C5 — capability matching is subset containment -/

/-- C5: for every need set and provide set over the flag vocabulary,
`match_provide need provide` returns true iff `need ⊆ provide`; an empty
need matches any provide, and a non-empty need never matches an empty
provide. -/
theorem match_provide_iff_subset (need provide : FlagSet) :
    (match_provide need provide = true ↔ need ⊆ provide)
    ∧ match_provide ∅ provide = true
    ∧ (need ≠ ∅ → match_provide need ∅ = false) := by
  refine ⟨decide_eq_true_iff, by simp [match_provide], fun h => ?_⟩
  simpa [match_provide, Finset.subset_empty] using h

/-- Witness for C5 at a concrete non-empty need and empty provide. -/
theorem match_provide_iff_subset_witness :
    ({Flag.android} : FlagSet) ≠ ∅
    ∧ match_provide {Flag.android} ∅ = false :=
  ⟨by decide, (match_provide_iff_subset {Flag.android} ∅).2.2 (by decide)⟩

/-! ## Claim C1 — a composite's need across sequence transformations -/

/-- C1 counterexample: the composite `compositetest("comp", [porttest("p")
.needs(storage_boot=True)])` satisfies the need-equals-union property at
construction, but after `into_bootporttest()` its sequence holds a plain
boot-test command that carries no need set while the composite's need is
still `{storage_boot}` — so its need no longer equals the union of the
need sets of the subtests currently in its sequence. -/
theorem composite_need_after_transform_counterexample :
    (porttest "p").needs [(Flag.storage_boot, true)] = some pEx
    ∧ compositetest "comp" [pEx] = some cEx
    ∧ composite_need_invariant cEx
    ∧ into_bootporttest cEx = some cExBoot
    ∧ ¬ composite_need_invariant cExBoot := by
  refine ⟨by decide, by decide, ?_, by decide, ?_⟩
  · show subtest_need_union [pEx] = some _
    decide
  · show ¬ (subtest_need_union _ = some _)
    decide

/-- C1 (amended): a composite's need is the union of its subtests' need
sets at construction, and both sequence transformations
(`into_bootporttest`, `into_androidporttest`) leave the stored need
unchanged while converting the subtests (rather than recomputing the
need from the converted sequence). -/
theorem composite_need_after_transform :
    (∀ (n : String) (seq : List Test) (e : Bool) (c : Test),
      compositetest n seq e = some c →
      ∃ u, subtest_need_union seq = some u ∧ c = .composite n seq e u)
    ∧ (∀ (n : String) (seq : List Test) (e : Bool) (need : FlagSet)
        (r : Test),
      into_bootporttest (.composite n seq e need) = some r →
      ∃ seq2, into_bootporttestSeq seq = some seq2
        ∧ r = .composite n seq2 e need)
    ∧ (∀ (pre : String) (ca ra : List String) (n : String)
        (seq : List Test) (e : Bool) (need : FlagSet) (r : Test),
      into_androidporttest pre ca ra (.composite n seq e need) = some r →
      ∃ seq2, into_androidporttestSeq pre ca ra seq = some seq2
        ∧ r = .composite n seq2 e need) := by
  refine ⟨fun n seq e c h => ?_, fun n seq e need r h => ?_,
    fun pre ca ra n seq e need r h => ?_⟩
  · rw [compositetest] at h
    cases hm : seq.mapM needOpt with
    | none => rw [hm] at h; simp at h
    | some l =>
        rw [hm] at h
        simp only [Option.map_some', Option.some.injEq] at h
        refine ⟨l.foldl (· ∪ ·) ∅, ?_, h.symm⟩
        rw [subtest_need_union, hm]
        rfl
  · rw [into_bootporttest] at h
    cases hm : into_bootporttestSeq seq with
    | none => rw [hm] at h; simp at h
    | some s2 =>
        rw [hm] at h
        simp only [Option.map_some', Option.some.injEq] at h
        exact ⟨s2, rfl, h.symm⟩
  · rw [into_androidporttest] at h
    cases hm : into_androidporttestSeq pre ca ra seq with
    | none => rw [hm] at h; simp at h
    | some s2 =>
        rw [hm] at h
        simp only [Option.map_some', Option.some.injEq] at h
        exact ⟨s2, rfl, h.symm⟩

/-- Witness for C1 at the concrete composite `cEx`. -/
theorem composite_need_after_transform_witness :
    ∃ u, subtest_need_union [pEx] = some u
      ∧ cEx = .composite "comp" [pEx] true u :=
  composite_need_after_transform.1 "comp" [pEx] true cEx (by decide)

/-! ## Claim C7 — optional vs. required include of a missing path -/

/-- C7: including a nonexistent path with `optional=True` contributes the
empty list and raises nothing, while a non-optional include of the same
path fails the configuration load with a file-not-found error. -/
theorem include_optional_missing (α : Type) (fs : String → Option (CExpr α))
    (fuel : Nat) (config_dir p : String)
    (hrel : starts_with_dot p = false) (hmiss : fs p = none) :
    include_stmt fs (fuel + 1) config_dir p true = .ok []
    ∧ include_stmt fs (fuel + 1) config_dir p false
        = .error (.fileNotFound p) := by
  constructor <;>
    simp [include_stmt, hrel, read_config_file, hmiss]

/-- Witness for C7: an empty filesystem and the path `missing.cfg`. -/
theorem include_optional_missing_witness :
    include_stmt (fun _ => (none : Option (CExpr Unit))) 1 "cfg"
        "missing.cfg" true = .ok []
    ∧ include_stmt (fun _ => (none : Option (CExpr Unit))) 1 "cfg"
        "missing.cfg" false = .error (.fileNotFound "missing.cfg") :=
  include_optional_missing Unit (fun _ => none) 0 "cfg" "missing.cfg"
    (by decide) rfl

/-! ## Claim C8 — `boottests` selects exactly need-matching tests -/

lemma porttests_filter_eq_filter (ts : List Test) (p : FlagSet)
    (h : ∀ t ∈ ts, (porttest_match t p).isSome) :
    porttests_filter ts p
      = some (ts.filter fun t => (porttest_match t p).getD false) := by
  induction ts with
  | nil => rfl
  | cons t ts ih =>
      obtain ⟨b, hb⟩ := Option.isSome_iff_exists.mp (h t (by simp))
      rw [porttests_filter, hb, ih fun t' ht' => h t' (by simp [ht'])]
      cases b <;> simp [List.filter_cons, hb]

lemma into_bootporttestSeq_eq_filterMap (ts : List Test)
    (h : ∀ t ∈ ts, (into_bootporttest t).isSome) :
    into_bootporttestSeq ts = some (ts.filterMap into_bootporttest) := by
  induction ts with
  | nil => rfl
  | cons t ts ih =>
      obtain ⟨y, hy⟩ := Option.isSome_iff_exists.mp (h t (by simp))
      rw [into_bootporttestSeq, hy, ih fun t' ht' => h t' (by simp [ht'])]
      simp [List.filterMap_cons, hy]

lemma filter_filterMap_eq_selection (ts : List Test) (p : FlagSet)
    (h : ∀ t ∈ ts,
      (∃ q e tmo need, t = .port q e tmo need) ∨ ∃ n c e, t = .host n c e) :
    (ts.filter fun t => (porttest_match t p).getD false).filterMap
        into_bootporttest
      = boottests_selection ts p := by
  induction ts with
  | nil => rfl
  | cons t ts ih =>
      have IH := ih fun t' ht' => h t' (by simp [ht'])
      rcases h t (by simp) with ⟨q, e, tm, nd, rfl⟩ | ⟨n, c, e, rfl⟩
      · by_cases hsub : nd ⊆ p
        · simp [porttest_match, match_provide, hsub, List.filter_cons,
            boottests_selection, List.filterMap_cons, into_bootporttest, IH,
            boottests_selection] at IH ⊢
          exact IH
        · simp [porttest_match, match_provide, hsub, List.filter_cons,
            boottests_selection, List.filterMap_cons, IH] at IH ⊢
          exact IH
      · simp [porttest_match, List.filter_cons, boottests_selection,
          List.filterMap_cons] at IH ⊢
        exact IH

/-- C8: over flattened input lists of port tests and host tests,
`boottests` returns exactly the tests whose need set is a subset of the
provide set, each converted to a `"boot-test:"+port` command — and a
host test is always excluded because its need never matches any provide
set. -/
theorem boottests_filters_by_need (ts : List Test) (p : FlagSet)
    (h : ∀ t ∈ ts,
      (∃ q e tmo need, t = .port q e tmo need) ∨ ∃ n c e, t = .host n c e) :
    boottests ts p = some (boottests_selection ts p)
    ∧ ∀ (n : String) (c : List String) (e : Bool) (p' : FlagSet),
        porttest_match (.host n c e) p' = some false := by
  refine ⟨?_, fun n c e p' => rfl⟩
  have h1 : ∀ t ∈ ts, (porttest_match t p).isSome := by
    intro t ht
    rcases h t ht with ⟨q, e, tm, nd, rfl⟩ | ⟨n, c, e, rfl⟩ <;>
      simp [porttest_match]
  have h2 : ∀ t ∈ ts.filter fun t => (porttest_match t p).getD false,
      (into_bootporttest t).isSome := by
    intro t ht
    have hm := List.mem_filter.mp ht
    rcases h t hm.1 with ⟨q, e, tm, nd, rfl⟩ | ⟨n, c, e, rfl⟩
    · simp [into_bootporttest]
    · simpa [porttest_match] using hm.2
  rw [boottests, porttests_filter_eq_filter ts p h1, Option.some_bind,
    into_bootporttestSeq_eq_filterMap _ h2,
    filter_filterMap_eq_selection ts p h]

/-- Witness for C8 at the spec's example: a port test needing
`storage_boot` is included, one also needing `android` is excluded, and a
host test is excluded, against provides `{storage_boot, smp4}`. -/
theorem boottests_filters_by_need_witness :
    boottests
        [.port "p1" true none {Flag.storage_boot},
         .port "p2" true none {Flag.storage_boot, Flag.android},
         hosttest "h"]
        {Flag.storage_boot, Flag.smp4}
      = some (boottests_selection
          [.port "p1" true none {Flag.storage_boot},
           .port "p2" true none {Flag.storage_boot, Flag.android},
           hosttest "h"]
          {Flag.storage_boot, Flag.smp4})
    ∧ ∀ (n : String) (c : List String) (e : Bool) (p' : FlagSet),
        porttest_match (.host n c e) p' = some false :=
  boottests_filters_by_need
    [.port "p1" true none {Flag.storage_boot},
     .port "p2" true none {Flag.storage_boot, Flag.android},
     hosttest "h"]
    {Flag.storage_boot, Flag.smp4}
    (by
      intro t ht
      simp only [hosttest, List.mem_cons, List.not_mem_nil, or_false] at ht
      rcases ht with rfl | rfl | rfl
      · exact Or.inl ⟨_, _, _, _, rfl⟩
      · exact Or.inl ⟨_, _, _, _, rfl⟩
      · exact Or.inr ⟨_, _, _, rfl⟩)

/-! ## Claim C9 — build order from `builddep` edges -/

lemma deps_precede_nil (tbl : ProjectTable) : deps_precede tbl [] := by
  intro l1 n l2 h
  exact absurd h (by simp)

lemma deps_precede_concat (tbl : ProjectTable) (out : List String)
    (n : String) (h1 : deps_precede tbl out)
    (h2 : ∀ d, dep_edge tbl n d → d ∈ out) :
    deps_precede tbl (out ++ [n]) := by
  intro l1 m l2 hsplit d hd
  rcases List.eq_nil_or_concat l2 with rfl | ⟨l2', x, rfl⟩
  · obtain ⟨rfl, hm⟩ := List.append_inj' hsplit (by simp)
    obtain rfl : n = m := by simpa using hm
    exact h2 d hd
  · have h3 : out ++ [n] = (l1 ++ m :: l2') ++ [x] := by
      simpa using hsplit
    obtain ⟨ho, _⟩ := List.append_inj' h3 (by simp)
    exact h1 l1 m l2' ho d hd

/-- The depth-first walk of `get_build_deps` keeps the invariant: under
an acyclic table, assuming every grey node (visited but not yet output)
transitively depends on the current node, the walk preserves the
invariant, only grows the visited set and the output, leaves the grey
set unchanged, and visits its argument. -/
lemma get_build_deps_spec (tbl : ProjectTable)
    (hacyc : acyclic tbl) : ∀ fuel : Nat,
    ∀ (name : String) (vis out vis' out' : List String),
      get_build_deps tbl fuel name (vis, out) = some (vis', out') →
      dfs_inv tbl vis out →
      (∀ g, g ∈ vis → g ∉ out → Relation.TransGen (dep_edge tbl) g name) →
      dfs_inv tbl vis' out'
      ∧ (∀ x, x ∈ vis → x ∈ vis')
      ∧ (∃ Δ, out' = out ++ Δ)
      ∧ (∀ x, (x ∈ vis' ∧ x ∉ out') ↔ (x ∈ vis ∧ x ∉ out))
      ∧ name ∈ vis' := by
  intro fuel
  induction fuel with
  | zero =>
      intro name vis out vis' out' h
      exact absurd h (by simp [get_build_deps])
  | succ fuel ih =>
      have ihList : ∀ (ds : List String) (vis out vis' out' : List String),
          get_build_deps_list tbl fuel ds (vis, out) = some (vis', out') →
          dfs_inv tbl vis out →
          (∀ g, g ∈ vis → g ∉ out →
            ∀ d ∈ ds, Relation.TransGen (dep_edge tbl) g d) →
          dfs_inv tbl vis' out'
          ∧ (∀ x, x ∈ vis → x ∈ vis')
          ∧ (∃ Δ, out' = out ++ Δ)
          ∧ (∀ x, (x ∈ vis' ∧ x ∉ out') ↔ (x ∈ vis ∧ x ∉ out))
          ∧ (∀ d ∈ ds, d ∈ vis') := by
        intro ds
        induction ds with
        | nil =>
            intro vis out vis' out' h hInv hG
            rw [get_build_deps_list] at h
            obtain ⟨rfl, rfl⟩ : vis = vis' ∧ out = out' := by
              simpa [Prod.ext_iff] using h
            exact ⟨hInv, fun x hx => hx, ⟨[], by simp⟩,
              fun x => Iff.rfl, by simp⟩
        | cons d ds ihd =>
            intro vis out vis' out' h hInv hG
            rw [get_build_deps_list] at h
            cases hg : get_build_deps tbl fuel d (vis, out) with
            | none => rw [hg] at h; exact absurd h (by simp)
            | some st1 =>
                rw [hg] at h
                obtain ⟨v1, o1⟩ := st1
                obtain ⟨hInv1, hMono1, ⟨Δ1, hΔ1⟩, hGrey1, hdv1⟩ :=
                  ih d vis out v1 o1 hg hInv
                    (fun g hg1 hg2 => hG g hg1 hg2 d (by simp))
                obtain ⟨hInv2, hMono2, ⟨Δ2, hΔ2⟩, hGrey2, hds2⟩ :=
                  ihd v1 o1 vis' out' h hInv1
                    (fun g hg1 hg2 d' hd' => by
                      obtain ⟨hgv, hgo⟩ := (hGrey1 g).mp ⟨hg1, hg2⟩
                      exact hG g hgv hgo d' (by simp [hd']))
                refine ⟨hInv2, fun x hx => hMono2 x (hMono1 x hx),
                  ⟨Δ1 ++ Δ2, by simp [hΔ2, hΔ1]⟩,
                  fun x => (hGrey2 x).trans (hGrey1 x), ?_⟩
                intro d' hd'
                rcases List.mem_cons.mp hd' with rfl | hd'
                · exact hMono2 d' (hdv1)
                · exact hds2 d' hd'
      intro name vis out vis' out' h hInv hG
      rw [get_build_deps] at h
      by_cases hv : name ∈ vis
      · simp only [hv, if_true] at h
        obtain ⟨rfl, rfl⟩ : vis = vis' ∧ out = out' := by
          simpa [Prod.ext_iff] using h
        exact ⟨hInv, fun x hx => hx, ⟨[], by simp⟩, fun x => Iff.rfl, hv⟩
      · simp only [hv, if_false] at h
        cases hl : get_build_deps_list tbl fuel (also_build tbl name)
            (name :: vis, out) with
        | none => rw [hl] at h; exact absurd h (by simp)
        | some st2 =>
            rw [hl] at h
            obtain ⟨vis2, out2⟩ := st2
            obtain ⟨rfl, rfl⟩ : vis2 = vis' ∧ out2 ++ [name] = out' := by
              simpa [Prod.ext_iff] using h
            have hNameOut : name ∉ out := fun hx => hv (hInv.2.1 name hx)
            have hInv1 : dfs_inv tbl (name :: vis) out :=
              ⟨hInv.1, fun x hx => List.mem_cons_of_mem _ (hInv.2.1 x hx),
                hInv.2.2⟩
            have hG1 : ∀ g, g ∈ name :: vis → g ∉ out →
                ∀ d ∈ also_build tbl name,
                  Relation.TransGen (dep_edge tbl) g d := by
              intro g hg hgo d hd
              rcases List.mem_cons.mp hg with rfl | hgv
              · exact Relation.TransGen.single hd
              · exact Relation.TransGen.tail (hG g hgv hgo) hd
            obtain ⟨hInv2, hMono2, ⟨Δ, hΔ⟩, hGrey2, hDs⟩ :=
              ihList (also_build tbl name) (name :: vis) out vis2 out2 hl
                hInv1 hG1
            have hNameVis2 : name ∈ vis2 := hMono2 name (by simp)
            have hNameOut2 : name ∉ out2 :=
              ((hGrey2 name).mpr ⟨by simp, hNameOut⟩).2
            have hDepsOut2 : ∀ d, dep_edge tbl name d → d ∈ out2 := by
              intro d hd
              by_contra hdo
              obtain ⟨hdmem, hdout⟩ := (hGrey2 d).mp ⟨hDs d hd, hdo⟩
              rcases List.mem_cons.mp hdmem with rfl | hdvis
              · exact hacyc d (Relation.TransGen.single hd)
              · exact hacyc d
                  (Relation.TransGen.tail (hG d hdvis hdout) hd)
            refine ⟨⟨?_, ?_, ?_⟩, ?_, ⟨Δ ++ [name], by simp [hΔ]⟩, ?_, ?_⟩
            · rw [List.nodup_append]
              exact ⟨hInv2.1, List.nodup_singleton _, by
                intro a ha hb
                obtain rfl : a = name := by simpa using hb
                exact hNameOut2 ha⟩
            · intro x hx
              rcases List.mem_append.mp hx with hx | hx
              · exact hInv2.2.1 x hx
              · obtain rfl : x = name := by simpa using hx
                exact hNameVis2
            · exact deps_precede_concat tbl out2 name hInv2.2.2 hDepsOut2
            · exact fun x hx => hMono2 x (List.mem_cons_of_mem _ hx)
            · intro x
              constructor
              · rintro ⟨hxv, hxo⟩
                have hxo2 : x ∉ out2 := fun hx => hxo (by simp [hx])
                have hxn : x ≠ name := by
                  rintro rfl
                  exact hxo (by simp)
                obtain ⟨hxm, hxout⟩ := (hGrey2 x).mp ⟨hxv, hxo2⟩
                rcases List.mem_cons.mp hxm with rfl | hxvis
                · exact absurd rfl hxn
                · exact ⟨hxvis, hxout⟩
              · rintro ⟨hxv, hxo⟩
                have hxn : x ≠ name := by
                  rintro rfl
                  exact hv hxv
                obtain ⟨hxv2, hxo2⟩ :=
                  (hGrey2 x).mpr ⟨List.mem_cons_of_mem _ hxv, hxo⟩
                refine ⟨hxv2, fun hx => ?_⟩
                rcases List.mem_append.mp hx with hx | hx
                · exact hxo2 hx
                · exact hxn (by simpa using hx)
            · exact hNameVis2

/-- Any rank function strictly decreasing along dependency edges rules
out dependency cycles. -/
lemma acyclic_of_rank (tbl : ProjectTable) (rank : String → Nat)
    (h : ∀ n d, dep_edge tbl n d → rank d < rank n) : acyclic tbl := by
  intro n hcyc
  have hlt : ∀ a b, Relation.TransGen (dep_edge tbl) a b → rank b < rank a := by
    intro a b hab
    induction hab with
    | single h1 => exact h _ _ h1
    | tail _ h1 ihr => exact lt_trans (h _ _ h1) ihr
  exact absurd (hlt n n hcyc) (lt_irrefl _)

lemma rankEx_decreasing : ∀ n d, dep_edge tblEx n d → rankEx d < rankEx n := by
  intro n d h
  by_cases ha : n = "a"
  · subst ha
    obtain rfl : d = "b" := by
      have he : also_build tblEx "a" = ["b"] := by decide
      simpa [dep_edge, he] using h
    decide
  · by_cases hb : n = "b"
    · subst hb
      obtain rfl : d = "c" := by
        have he : also_build tblEx "b" = ["c"] := by decide
        simpa [dep_edge, he] using h
      decide
    · by_cases hc : n = "c"
      · subst hc
        have he : also_build tblEx "c" = [] := by decide
        simp [dep_edge, he] at h
      · have h1 : (("a" : String) == n) = false :=
          beq_eq_false_iff_ne.mpr fun e => ha e.symm
        have h2 : (("b" : String) == n) = false :=
          beq_eq_false_iff_ne.mpr fun e => hb e.symm
        have h3 : (("c" : String) == n) = false :=
          beq_eq_false_iff_ne.mpr fun e => hc e.symm
        have he : also_build tblEx n = [] := by
          simp [also_build, tblEx, List.find?, h1, h2, h3]
        simp [dep_edge, he] at h

/-- C9: after `builddep(["a"], needs=["b"])` and `builddep(["b"],
needs=["c"])` the computed build order starting at `"a"` is exactly
`["c", "b", "a"]`; and in general, whenever the dependency edges are
acyclic, any build order the DFS produces lists every project at most
once and only after all of its dependencies. -/
theorem builddep_build_order :
    build_order (builddep (builddep [] ["a"] ["b"]) ["b"] ["c"]) 5 "a"
      = some ["c", "b", "a"]
    ∧ ∀ (tbl : ProjectTable) (fuel : Nat) (root : String)
        (vis out : List String),
      acyclic tbl →
      get_build_deps tbl fuel root ([], []) = some (vis, out) →
      out.Nodup ∧ deps_precede tbl out := by
  constructor
  · have htbl : builddep (builddep [] ["a"] ["b"]) ["b"] ["c"] = tblEx := by
      decide
    rw [htbl]
    simp +decide [build_order, get_build_deps, get_build_deps_list,
      also_build, tblEx, List.find?]
  · intro tbl fuel root vis out hacyc h
    obtain ⟨hInv, -, -, -, -⟩ :=
      get_build_deps_spec tbl hacyc fuel root [] [] vis out h
        ⟨List.nodup_nil, by simp, deps_precede_nil tbl⟩
        (by intro g hg; simp at hg)
    exact ⟨hInv.1, hInv.2.2⟩

/-- Witness for C9: the DFS run on the example table is accepted by the
general ordering guarantee. -/
theorem builddep_build_order_witness :
    (["c", "b", "a"] : List String).Nodup
    ∧ deps_precede tblEx ["c", "b", "a"] :=
  builddep_build_order.2 tblEx 5 "a" ["c", "b", "a"] ["c", "b", "a"]
    (acyclic_of_rank tblEx rankEx rankEx_decreasing)
    (by simp +decide [get_build_deps, get_build_deps_list, also_build,
      tblEx, List.find?])

/-! ## Engine bookkeeping lemmas shared by claims C4 and C10 -/

lemma run_rel_refl (retry : Bool) (st : St) : run_rel retry st st :=
  ⟨le_rfl, fun _ => rfl, fun _ => ⟨rfl, id⟩⟩

lemma run_rel_trans {retry : Bool} {st st1 st2 : St}
    (h1 : run_rel retry st st1) (h2 : run_rel retry st1 st2) :
    run_rel retry st st2 := by
  refine ⟨le_trans h1.1 h2.1, fun hm => ?_, fun hr => ?_⟩
  · rw [h2.2.1 (le_trans hm h1.1), h1.2.1 hm]
  · exact ⟨by rw [(h2.2.2 hr).1, (h1.2.2 hr).1],
      fun hi => (h2.2.2 hr).2 ((h1.2.2 hr).2 hi)⟩

lemma run_rel_of_eq_fields (retry : Bool) (st st' : St)
    (h1 : st'.retried_count = st.retried_count)
    (h2 : st'.retries = st.retries)
    (h3 : st'.test_results = st.test_results)
    (h4 : st'.flaked_count = st.flaked_count) :
    run_rel retry st st' := by
  refine ⟨le_of_eq h1.symm, fun _ => h2, fun _ => ⟨h2, fun hi => ?_⟩⟩
  rw [all_retried_inv, h1, h3, h4]
  exact hi

lemma run_rel_add_result (retry : Bool) (st : St) (n : String) (p : Bool) :
    run_rel retry st (add_result st n p (!retry)) := by
  refine ⟨?_, ?_, ?_⟩
  · simp only [add_result]
    split <;> split <;> simp
  · intro _
    simp only [add_result]
    split <;> split <;> rfl
  · rintro rfl
    refine ⟨by simp only [add_result]; split <;> split <;> rfl, fun hi => ?_⟩
    obtain ⟨hiR, hiC, hiF⟩ := hi
    simp only [add_result, Bool.not_false]
    refine ⟨?_, ?_, ?_⟩
    · intro r hr
      split at hr <;> split at hr <;>
        simp_all [List.mem_append] <;>
        rcases hr with hr | rfl <;> simp_all
    · split <;> split <;> simp_all
    · split <;> split <;> simp_all [List.filter_append]

@[simp] lemma load_env_retried_count (st : St) :
    (load_env st).retried_count = st.retried_count := by
  rw [load_env]; split <;> rfl

@[simp] lemma load_env_retries (st : St) :
    (load_env st).retries = st.retries := by
  rw [load_env]; split <;> rfl

@[simp] lemma load_env_test_results (st : St) :
    (load_env st).test_results = st.test_results := by
  rw [load_env]; split <;> rfl

@[simp] lemma load_env_flaked_count (st : St) :
    (load_env st).flaked_count = st.flaked_count := by
  rw [load_env]; split <;> rfl

@[simp] lemma init_runner_retried_count (st : St) :
    (init_runner st).retried_count = st.retried_count := by
  rw [init_runner]; split <;> rfl

@[simp] lemma init_runner_retries (st : St) :
    (init_runner st).retries = st.retries := by
  rw [init_runner]; split <;> rfl

@[simp] lemma init_runner_test_results (st : St) :
    (init_runner st).test_results = st.test_results := by
  rw [init_runner]; split <;> rfl

@[simp] lemma init_runner_flaked_count (st : St) :
    (init_runner st).flaked_count = st.flaked_count := by
  rw [init_runner]; split <;> rfl

@[simp] lemma shutdown_runner_retried_count (st : St) :
    (shutdown_runner st).retried_count = st.retried_count := by
  rw [shutdown_runner]; split <;> rfl

@[simp] lemma shutdown_runner_retries (st : St) :
    (shutdown_runner st).retries = st.retries := by
  rw [shutdown_runner]; split <;> rfl

@[simp] lemma shutdown_runner_test_results (st : St) :
    (shutdown_runner st).test_results = st.test_results := by
  rw [shutdown_runner]; split <;> rfl

@[simp] lemma shutdown_runner_flaked_count (st : St) :
    (shutdown_runner st).flaked_count = st.flaked_count := by
  rw [shutdown_runner]; split <;> rfl

/-- Every `run_test` call relates its input and output states by
`run_rel`: counters only grow, no retry once the cap is reached, and
with retrying off every record is marked retried. -/
lemma run_test_rel (σ : Nat → Option Int) :
    ∀ (t : Test) (parent retry : Bool) (st : St),
      run_rel retry st (run_test σ t parent retry st).2 := by
  refine run_test.induct σ
    (fun t parent retry st =>
      run_rel retry st (run_test σ t parent retry st).2)
    (fun t parent retry st =>
      run_rel retry st (run_generic σ t parent retry st).2)
    (fun t parent retry st status =>
      run_rel retry st (after_run σ t parent retry st status).2)
    (fun seq retry st =>
      run_rel retry st (run_test_sequence σ seq retry st).2)
    ?_ ?_ ?_ ?_ ?_ ?_ ?_ ?_ ?_ ?_ ?_ ?_ ?_ ?_ ?_ ?_ ?_
  · -- host, external call raises
    intro parent retry st name command enabled h
    simp only [run_test, h]
    exact run_rel_of_eq_fields _ _ _ rfl rfl rfl rfl
  · -- host, status returned
    intro parent retry st name command enabled status h ih
    simp only [run_test, h]
    exact run_rel_trans (run_rel_of_eq_fields _ _ _ rfl rfl rfl rfl) ih
  · -- composite, sequence raises
    intro parent retry st name seq enabled need e st1 h ih
    rw [h] at ih
    simp only [run_test, h]
    exact ih
  · -- composite, sequence returns a status
    intro parent retry st name seq enabled need status st1 h ih1 ih3
    rw [h] at ih1
    simp only [run_test, h]
    exact run_rel_trans ih1 ih3
  · -- android dispatches to the generic branch
    intro parent retry st name sc command enabled ih
    simp only [run_test]
    exact ih
  · -- plain test dispatches to the generic branch
    intro parent retry st name command enabled ih
    simp only [run_test]
    exact ih
  · -- raw port test: TypeError before anything happens
    intro parent retry st port enabled timeout need
    simp only [run_test]
    exact run_rel_refl _ _
  · -- reboot inside a composite
    intro retry st
    simp only [run_test, if_true]
    exact run_rel_of_eq_fields _ _ _ (by simp) (by simp) (by simp) (by simp)
  · -- reboot outside a composite
    intro parent retry st h
    simp only [run_test, h, if_false]
    exact run_rel_refl _ _
  · -- generic test, external call raises
    intro t parent retry st h
    simp only [run_generic, h]
    exact run_rel_of_eq_fields _ _ _ (by simp) (by simp) (by simp) (by simp)
  · -- generic test, status returned
    intro t parent retry st status h ih
    simp only [run_generic, h]
    refine run_rel_trans ?_ ih
    exact run_rel_of_eq_fields _ _ _ (by simp) (by simp) (by simp) (by simp)
  · -- retry branch of the common tail
    intro t parent retry st status h ih
    simp only [after_run, dif_pos h]
    refine ⟨?_, fun hm => absurd hm (not_le.mpr h.2.2), fun hr =>
      absurd h.2.1 (by simp [hr])⟩
    have h1 := ih.1
    simpa using h1
  · -- recording branch of the common tail
    intro t parent retry st status h
    simp only [after_run, dif_neg h]
    exact run_rel_add_result retry st _ _
  · -- empty subtest sequence
    intro retry st
    simp only [run_test_sequence]
    exact run_rel_refl _ _
  · -- subtest raises
    intro retry st t ts e st1 h ih
    rw [h] at ih
    simp only [run_test_sequence, h]
    exact ih
  · -- subtest fails: stop the sequence
    intro retry st t ts status st1 h hs ih
    rw [h] at ih
    simp only [run_test_sequence, h, if_pos hs]
    exact ih
  · -- subtest passes: continue
    intro retry st t ts status st1 h hs ih1 ih4
    rw [h] at ih1
    simp only [run_test_sequence, h, if_neg hs]
    exact run_rel_trans ih1 ih4

/-- The project test loop preserves `run_rel` as well. -/
lemma run_tests_loop_rel (σ : Nat → Option Int) (rd : Bool)
    (tf : Option (List (String → Bool))) (retry : Bool) :
    ∀ (tests : List Test) (st : St),
      run_rel retry st (run_tests_loop σ rd tf retry tests st).2 := by
  intro tests
  induction tests with
  | nil =>
      intro st
      simp only [run_tests_loop]
      exact run_rel_refl _ _
  | cons t ts ih =>
      intro st
      simp only [run_tests_loop]
      split
      · exact ih st
      · split
        · exact ih st
        · have h1 := run_test_rel σ t false retry st
          cases hr : run_test σ t false retry st with
          | mk res st1 =>
              rw [hr] at h1
              cases res with
              | error e => exact h1
              | ok v => exact run_rel_trans h1 (ih st1)

/-! ## Claim C4 — the retry cap is permanent -/

/-- C4: the shared retried counter never decreases across any `run_test`
call, and once it has reached `MAX_RETRIES`, no test run later (from any
such state, whether or not run-level retrying is enabled) ever starts a
retry attempt — the ghost `retries` counter stays put for the rest of
the run. -/
theorem retry_cap_stops_retries (σ : Nat → Option Int) :
    (∀ (t : Test) (parent retry : Bool) (st : St),
      st.retried_count ≤ (run_test σ t parent retry st).2.retried_count
      ∧ (MAX_RETRIES ≤ st.retried_count →
          (run_test σ t parent retry st).2.retries = st.retries))
    ∧ ∀ (rd : Bool) (tf : Option (List (String → Bool))) (retry : Bool)
        (tests : List Test) (st : St),
      MAX_RETRIES ≤ st.retried_count →
      (run_tests_loop σ rd tf retry tests st).2.retries = st.retries :=
  ⟨fun t parent retry st =>
      ⟨(run_test_rel σ t parent retry st).1,
       (run_test_rel σ t parent retry st).2.1⟩,
   fun rd tf retry tests st h =>
      (run_tests_loop_rel σ rd tf retry tests st).2.1 h⟩

/-- Witness for C4: with the retried counter already at the cap, running
a failing test with retrying enabled starts no retry attempt. -/
theorem retry_cap_stops_retries_witness :
    (run_tests_loop (fun _ => some 1) false none true
        [.plain "T" ["t"] true] { initSt with retried_count := 10 }).2.retries
      = ({ initSt with retried_count := 10 } : St).retries :=
  (retry_cap_stops_retries fun _ => some 1).2 false none true
    [.plain "T" ["t"] true] { initSt with retried_count := 10 } (by decide)

/-! ## Claim C10 — disabled retrying marks every record as retried -/

/-- C10: whenever run-level retrying is disabled (a test filter was
supplied or debug-on-error is set), every result `run_tests` records is
marked `retried = true`; consequently the run-wide retried counter
equals the number of recorded results and the flaked counter counts
exactly the passing records — although no retry attempt ever ran
(`retries = 0`). -/
theorem retry_disabled_marks_all_retried (σ : Nat → Option Int)
    (tests : List Test) (rd : Bool) (tf : Option (List (String → Bool)))
    (debug : Bool) (h : tf ≠ none ∨ debug = true) :
    (∀ r ∈ (run_tests σ tests rd tf debug).2.test_results,
      r.retried = true)
    ∧ (run_tests σ tests rd tf debug).2.retried_count
        = (run_tests σ tests rd tf debug).2.test_results.length
    ∧ (run_tests σ tests rd tf debug).2.flaked_count
        = ((run_tests σ tests rd tf debug).2.test_results.filter
            (·.passed)).length
    ∧ (run_tests σ tests rd tf debug).2.retries = 0 := by
  have hretry : (tf.isNone && !debug) = false := by
    rcases h with h | h
    · cases tf
      · exact absurd rfl h
      · simp
    · simp [h]
  have hrel := run_tests_loop_rel σ rd tf (tf.isNone && !debug) tests initSt
  rw [hretry] at hrel
  obtain ⟨hret, hinv⟩ := hrel.2.2 rfl
  have hfin := hinv ⟨by simp [initSt], by simp [initSt], by simp [initSt]⟩
  simp only [run_tests, hretry]
  split <;>
    exact ⟨hfin.1, hfin.2.1, hfin.2.2, hret⟩

/-- Witness for C10: a passing one-test run under an (empty) test filter
still marks the record retried and counts it as both retried and
flaked. -/
theorem retry_disabled_marks_all_retried_witness :
    (∀ r ∈ (run_tests (fun _ => some 0) [.plain "T" ["t"] true] false
        (some []) false).2.test_results, r.retried = true)
    ∧ (run_tests (fun _ => some 0) [.plain "T" ["t"] true] false
        (some []) false).2.retried_count
        = (run_tests (fun _ => some 0) [.plain "T" ["t"] true] false
            (some []) false).2.test_results.length
    ∧ (run_tests (fun _ => some 0) [.plain "T" ["t"] true] false
        (some []) false).2.flaked_count
        = ((run_tests (fun _ => some 0) [.plain "T" ["t"] true] false
            (some []) false).2.test_results.filter (·.passed)).length
    ∧ (run_tests (fun _ => some 0) [.plain "T" ["t"] true] false
        (some []) false).2.retries = 0 :=
  retry_disabled_marks_all_retried (fun _ => some 0)
    [.plain "T" ["t"] true] false (some []) false (.inl (by simp))

/-! ## Claim C6 — the environment is always shut down on exit -/

/-- C6: however `run_tests` exits — the test loop finishing normally or
an exception propagating out of it — if the test environment module was
loaded, the very last driver interaction is a `shutdown` of the current
runner instance. -/
theorem run_tests_shutdown_on_exit (σ : Nat → Option Int)
    (tests : List Test) (rd : Bool) (tf : Option (List (String → Bool)))
    (debug : Bool) :
    (run_tests σ tests rd tf debug).2.env = true →
    (run_tests σ tests rd tf debug).2.events.getLast?
      = some (.shutdown (run_tests σ tests rd tf debug).2.runner) := by
  intro h
  by_cases hE : (run_tests_loop σ rd tf (tf.isNone && !debug) tests
      initSt).2.env = true
  · simp only [run_tests, hE, if_true]
    simp
  · simp only [run_tests, hE, if_false] at h
    exact absurd h hE

/-- Witness for C6 on an exceptional exit: the driver's run call raises
on the first test, and the trailing event is still a shutdown. -/
theorem run_tests_shutdown_on_exit_witness :
    (run_tests (fun _ => none) [.plain "T" ["t"] true] false none
        false).2.events.getLast?
      = some (.shutdown (run_tests (fun _ => none) [.plain "T" ["t"] true]
          false none false).2.runner) :=
  run_tests_shutdown_on_exit (fun _ => none) [.plain "T" ["t"] true] false
    none false
    (by simp [run_tests, run_tests_loop, run_test, run_generic,
      test_should_run, Test.enabled, initSt, load_env, init_runner])

/-! ## Claim C2 — fail-fast composite sequencing -/

/-- C2 counterexample: running the composite `[A(pass), B(fail 7),
C(would pass)]` (with retrying off) stops after `B` — only two oracle
calls happen (`pos = 2`), so `C` never runs — and the reported status is
`B`'s status 7; but the recorded results are *three*, not the claimed
exactly-two: the composite itself is also recorded as failed. -/
theorem composite_fail_fast_counterexample :
    (run_test sigAB compABC false false initSt).1 = .ok 7
    ∧ (run_test sigAB compABC false false initSt).2.test_results
        = [⟨"A", true, true⟩, ⟨"B", false, true⟩, ⟨"comp", false, true⟩]
    ∧ (run_test sigAB compABC false false initSt).2.test_results.length ≠ 2
    ∧ (run_test sigAB compABC false false initSt).2.pos = 2 := by
  refine ⟨?_, ?_, ?_, ?_⟩ <;>
    simp [run_test, run_generic, after_run, run_test_sequence, add_result,
      Test.name, sigAB, compABC, initSt, MAX_RETRIES, load_env, init_runner,
      shutdown_runner]

/-- C2 (amended): for a composite `[A, B, C]` where `A` returns 0 and
`B` returns `s ≠ 0`, run with retrying disabled for the attempt, the
subtest records are exactly `[A: pass, B: fail]` *followed by a record
for the composite itself* with `B`'s failing status; `C` is neither
executed (only two external calls happen) nor recorded; and the
composite's reported status equals `B`'s status. -/
theorem composite_fail_fast (σ : Nat → Option Int) (nA nB nC nComp : String)
    (cA cB cC : List String) (s : Int) (h0 : σ 0 = some 0)
    (h1 : σ 1 = some s) (hs : s ≠ 0) :
    run_test σ
        (.composite nComp
          [.plain nA cA true, .plain nB cB true, .plain nC cC true] true ∅)
        false false initSt
      = (.ok s,
        { env := true, runner := true, passed := false, passed_count := 1,
          failed_count := 2, flaked_count := 1, retried_count := 3,
          test_results := [⟨nA, true, true⟩, ⟨nB, false, true⟩,
            ⟨nComp, false, true⟩],
          pos := 2, retries := 0,
          events := [.load, .initRunner] }) := by
  simp [run_test, run_generic, after_run, run_test_sequence, add_result,
    Test.name, initSt, MAX_RETRIES, load_env, init_runner, shutdown_runner,
    h0, h1, hs]

/-- Witness for C2 at the concrete oracle `sigAB`. -/
theorem composite_fail_fast_witness :
    run_test sigAB
        (.composite "comp"
          [.plain "A" ["cmdA"] true, .plain "B" ["cmdB"] true,
           .plain "C" ["cmdC"] true] true ∅)
        false false initSt
      = (.ok 7,
        { env := true, runner := true, passed := false, passed_count := 1,
          failed_count := 2, flaked_count := 1, retried_count := 3,
          test_results := [⟨"A", true, true⟩, ⟨"B", false, true⟩,
            ⟨"comp", false, true⟩],
          pos := 2, retries := 0,
          events := [.load, .initRunner] }) :=
  composite_fail_fast sigAB "A" "B" "C" "comp" ["cmdA"] ["cmdB"] ["cmdC"] 7
    (by decide) (by decide) (by decide)

/-! ## Claim C3 — a flaky leaf test retried once and recorded as flaked -/

/-- C3: from any state with the shared retried counter below
`MAX_RETRIES`, a leaf test that fails its first attempt (status `s ≠ 0`)
and passes the single automatic retry, run with retrying enabled, ends
with status 0; exactly one result is recorded, with `passed = true` and
`retried = true`; the flaked counter increases by exactly 1; the
run-wide retried counter increases by exactly 1; and exactly one retry
attempt was started. -/
theorem flaky_leaf_retry_recorded (σ : Nat → Option Int) (n : String)
    (cmd : List String) (e parent : Bool) (st : St) (s : Int)
    (hcnt : st.retried_count < MAX_RETRIES)
    (h0 : σ st.pos = some s) (hs : s ≠ 0) (h1 : σ (st.pos + 1) = some 0) :
    (run_test σ (.plain n cmd e) parent true st).1 = .ok 0
    ∧ (run_test σ (.plain n cmd e) parent true st).2.test_results
        = st.test_results ++ [⟨n, true, true⟩]
    ∧ (run_test σ (.plain n cmd e) parent true st).2.flaked_count
        = st.flaked_count + 1
    ∧ (run_test σ (.plain n cmd e) parent true st).2.retried_count
        = st.retried_count + 1
    ∧ (run_test σ (.plain n cmd e) parent true st).2.passed_count
        = st.passed_count + 1
    ∧ (run_test σ (.plain n cmd e) parent true st).2.retries
        = st.retries + 1 := by
  rw [MAX_RETRIES] at hcnt
  by_cases henv : st.env = true <;> by_cases hrun : st.runner = true <;>
    (refine ⟨?_, ?_, ?_, ?_, ?_, ?_⟩ <;>
      simp [run_test, run_generic, after_run, add_result, Test.name,
        load_env, init_runner, shutdown_runner, MAX_RETRIES, henv, hrun,
        h0, h1, hs, hcnt])

/-- Witness for C3 at the concrete oracle `sigFlaky` from a fresh
state. -/
theorem flaky_leaf_retry_recorded_witness :
    (run_test sigFlaky (.plain "T" ["t"] true) false true initSt).1 = .ok 0
    ∧ (run_test sigFlaky (.plain "T" ["t"] true) false true
        initSt).2.test_results
        = initSt.test_results ++ [⟨"T", true, true⟩]
    ∧ (run_test sigFlaky (.plain "T" ["t"] true) false true
        initSt).2.flaked_count = initSt.flaked_count + 1
    ∧ (run_test sigFlaky (.plain "T" ["t"] true) false true
        initSt).2.retried_count = initSt.retried_count + 1
    ∧ (run_test sigFlaky (.plain "T" ["t"] true) false true
        initSt).2.passed_count = initSt.passed_count + 1
    ∧ (run_test sigFlaky (.plain "T" ["t"] true) false true
        initSt).2.retries = initSt.retries + 1 :=
  flaky_leaf_retry_recorded sigFlaky "T" ["t"] true false initSt 3
    (by decide) (by decide) (by decide) (by decide)

end TrustyBuild
